import Mathlib

/-!
Verification of the alert / baseline logic of the `alerta-passagens-gyn`
flight-price monitor.  The definitions below are a shallow embedding of the
Python sources `monitor_passagens.py` and `build_baselines.py`: finite Python
floats are modelled exactly as rationals, the special values `inf`, `-inf`
and `nan` are explicit constructors, and fallible operations return `Option`.
-/

set_option maxRecDepth 10000

/-- Python float values: a finite double is modelled exactly by a rational,
plus the special values `float("inf")`, `float("-inf")` and `float("nan")`. -/
inductive PyFloat where
  | finite (q : ℚ)
  | inf
  | ninf
  | nan
deriving DecidableEq

/-- Python `x <= y` on floats: every comparison involving `nan` is `False`. -/
def pyLe : PyFloat → PyFloat → Bool
  | .nan, _ => false
  | _, .nan => false
  | .ninf, _ => true
  | .inf, .inf => true
  | .inf, _ => false
  | .finite _, .inf => true
  | .finite _, .ninf => false
  | .finite a, .finite b => decide (a ≤ b)

/-- Python `x < y` on floats: every comparison involving `nan` is `False`. -/
def pyLt : PyFloat → PyFloat → Bool
  | .nan, _ => false
  | _, .nan => false
  | .ninf, .ninf => false
  | .ninf, _ => true
  | _, .ninf => false
  | .inf, _ => false
  | .finite _, .inf => true
  | .finite a, .finite b => decide (a < b)

/-- Exact subtraction on ℚ through `Rat.divInt`.  The Batteries field
operations on ℚ are `@[irreducible]` and do not evaluate under `decide`;
this form agrees with `-` everywhere (`qsub_eq_sub`). -/
def qsub (a b : ℚ) : ℚ :=
  Rat.divInt (a.num * (b.den : ℤ) - b.num * (a.den : ℤ)) ((a.den : ℤ) * (b.den : ℤ))

/-- Exact addition on ℚ through `Rat.divInt`; agrees with `+` everywhere
(`qadd_eq_add`). -/
def qadd (a b : ℚ) : ℚ :=
  Rat.divInt (a.num * (b.den : ℤ) + b.num * (a.den : ℤ)) ((a.den : ℤ) * (b.den : ℤ))

/-- Exact multiplication on ℚ through `Rat.divInt`; agrees with `*`
everywhere (`qmul_eq_mul`). -/
def qmul (a b : ℚ) : ℚ := Rat.divInt (a.num * b.num) ((a.den : ℤ) * (b.den : ℤ))

/-- Exact division on ℚ through `Rat.divInt`; agrees with `/` on every
nonzero divisor (`qdiv_eq_div`). -/
def qdiv (a b : ℚ) : ℚ := Rat.divInt (a.num * (b.den : ℤ)) ((a.den : ℤ) * b.num)

/-- Python `x - y` on floats (finite arithmetic exact, IEEE special values). -/
def pySub : PyFloat → PyFloat → PyFloat
  | .nan, _ => .nan
  | _, .nan => .nan
  | .inf, .inf => .nan
  | .inf, _ => .inf
  | .ninf, .ninf => .nan
  | .ninf, _ => .ninf
  | .finite _, .inf => .ninf
  | .finite _, .ninf => .inf
  | .finite a, .finite b => .finite (qsub a b)

/-- Python `x / y` on floats.  Division by an exact float zero raises
`ZeroDivisionError` in Python; the single call site in `deve_alertar` guards
the divisor against `0` (and `inf`), so the zero-divisor case is modelled by
the value `nan`, which is unreachable from that call site. -/
def pyDiv : PyFloat → PyFloat → PyFloat
  | .nan, _ => .nan
  | _, .nan => .nan
  | .inf, .inf => .nan
  | .inf, .ninf => .nan
  | .ninf, .inf => .nan
  | .ninf, .ninf => .nan
  | .inf, .finite b => if 0 < b then .inf else if b < 0 then .ninf else .nan
  | .ninf, .finite b => if 0 < b then .ninf else if b < 0 then .inf else .nan
  | .finite _, .inf => .finite 0
  | .finite _, .ninf => .finite 0
  | .finite a, .finite b => if b = 0 then .nan else .finite (qdiv a b)

/-- Python `round(q)` to the nearest integer, ties to even
(`mkRat 1 2` is the rational one half, written computably). -/
def pyRound (q : ℚ) : ℤ :=
  let f : ℤ := q.floor
  let r : ℚ := qsub q (f : ℚ)
  if r < mkRat 1 2 then f
  else if mkRat 1 2 < r then f + 1
  else if f % 2 = 0 then f else f + 1

/-- Decimal digits of a fractional part `0 ≤ q < 1`, up to `fuel` digits.
Config floats parsed from decimal literals have terminating decimal
expansions as rationals, which this renders exactly (Python's shortest
round-trip float repr prints the same digits for such values). -/
def fracDigitsAux : ℕ → ℚ → String
  | 0, _ => ""
  | fuel + 1, q =>
    if q = 0 then ""
    else
      let t : ℚ := qmul q 10
      toString t.floor ++ fracDigitsAux fuel (qsub t (t.floor : ℚ))

/-- Decimal rendering of a non-integral rational, sign first. -/
def decimalStr (q : ℚ) : String :=
  let sgn := if q < 0 then "-" else ""
  let a : ℚ := if q < 0 then -q else q
  sgn ++ toString a.floor ++ "." ++ fracDigitsAux 64 (qsub a (a.floor : ℚ))

/-- The cap as printed inside the alert reason of `deve_alertar`:
`int(MAX_PRECO_PP)` when `float(MAX_PRECO_PP).is_integer()`, otherwise the
float itself. -/
def capStr (cap : ℚ) : String :=
  if cap.den = 1 then toString cap.num else decimalStr cap

/-- The Python format `.0%` applied to a discount value: percentage with
zero decimals, rounding ties to even. -/
def pctStr : PyFloat → String
  | .finite q => toString (pyRound (qmul 100 q)) ++ "%"
  | .inf => "inf%"
  | .ninf => "-inf%"
  | .nan => "nan%"

/-- A Python value passed as `preco_atual`: either `float()` converts it
(the value is modelled by the resulting float) or `float()` raises
(any non-numeric input such as a non-numeric string or `None`). -/
inductive PyVal where
  | num (v : PyFloat)
  | nonNumeric
deriving DecidableEq

/-- `float(x)` as used on `preco_atual`: `none` models the raised exception. -/
def pyFloatOf : PyVal → Option PyFloat
  | .num v => some v
  | .nonNumeric => none

/-- Embedding of `deve_alertar` (src/monitor_passagens.py, lines 129-157).
`MAX_PRECO_PP` and `MIN_DISCOUNT_PCT` are the module-level config floats
(finite, parsed from decimal env strings), passed here as parameters.
The source first converts `preco_atual` with `float()` inside `try/except`;
then applies the cap rule; then, when `melhor_anterior` is not `None` and
not `in (float("inf"), 0)`, computes the relative discount and compares it
with `MIN_DISCOUNT_PCT`.  `melhor_anterior` is annotated `Optional[float]`,
so the inner `float(melhor_anterior)` conversion is the identity and its
`try/except` cannot fire; it is therefore not represented. -/
def deve_alertar (MAX_PRECO_PP MIN_DISCOUNT_PCT : ℚ) (preco_atual : PyVal)
    (melhor_anterior : Option PyFloat) : Bool × String :=
  match pyFloatOf preco_atual with
  | none => (false, "valor inválido")
  | some p =>
    if pyLe p (.finite MAX_PRECO_PP) then
      (true, "≤ teto " ++ capStr MAX_PRECO_PP)
    else
      match melhor_anterior with
      | none => (false, "sem queda significativa")
      | some m =>
        if m ≠ PyFloat.inf ∧ m ≠ PyFloat.finite 0 then
          let desconto := pyDiv (pySub m p) m
          if pyLe (.finite MIN_DISCOUNT_PCT) desconto then
            (true, "queda " ++ pctStr desconto)
          else
            (false, "sem queda significativa")
        else
          (false, "sem queda significativa")

/-- Embedding of `_d_days` (src/monitor_passagens.py, lines 160-164, and
src/build_baselines.py, lines 18-19): dates are modelled by their ordinal
day numbers, so `(dep - collected_utc).days` is integer subtraction.  The
`try/except` of the monitor variant only guards against non-date inputs,
which the typed embedding excludes. -/
def d_days (dep collected_utc : ℤ) : ℤ := max 0 (dep - collected_utc)

/-- Embedding of `_bucket_ddays` (src/monitor_passagens.py, lines 166-175). -/
def bucket_ddays (dd : ℤ) : String :=
  if dd ≤ 6 then "0-6"
  else if dd ≤ 13 then "7-13"
  else if dd ≤ 20 then "14-20"
  else if dd ≤ 27 then "21-27"
  else if dd ≤ 34 then "28-34"
  else if dd ≤ 49 then "35-49"
  else if dd ≤ 69 then "50-69"
  else "70-90"

/-- Embedding of `_bucket` (src/build_baselines.py, lines 21-29); the body
is textually identical to `_bucket_ddays`. -/
def bucket (dd : ℤ) : String :=
  if dd ≤ 6 then "0-6"
  else if dd ≤ 13 then "7-13"
  else if dd ≤ 20 then "14-20"
  else if dd ≤ 27 then "21-27"
  else if dd ≤ 34 then "28-34"
  else if dd ≤ 49 then "35-49"
  else if dd ≤ 69 then "50-69"
  else "70-90"

/-- Transcribed from the spec claim for comparison with the code: the listed
day-range buckets as closed integer ranges with their labels
(0-6, 7-13, 14-20, 21-27, 28-34, 35-49, 50-69, 70-90). -/
def specBucketRanges : List (ℤ × ℤ × String) :=
  [(0, 6, "0-6"), (7, 13, "7-13"), (14, 20, "14-20"), (21, 27, "21-27"),
   (28, 34, "28-34"), (35, 49, "35-49"), (50, 69, "50-69"), (70, 90, "70-90")]

/-- The bucket ranges actually realised by `bucket_ddays`: the first seven
are the listed closed ranges, the last is unbounded above (every day count
of at least 70 receives the label "70-90"). -/
def codeBucketRanges : List (ℤ × Option ℤ × String) :=
  [(0, some 6, "0-6"), (7, some 13, "7-13"), (14, some 20, "14-20"),
   (21, some 27, "21-27"), (28, some 34, "28-34"), (35, some 49, "35-49"),
   (50, some 69, "50-69"), (70, none, "70-90")]

/-- Membership of a day count in a bucket range with optional upper bound. -/
def inBucket (lo : ℤ) (hi : Option ℤ) (dd : ℤ) : Bool :=
  decide (lo ≤ dd) && (match hi with | none => true | some h => decide (dd ≤ h))

/-- The state of the nested "price"/"total" fields of one offer record:
the field chain is missing (the key function falls back to `float("inf")`),
present but with a total on which `float()` raises, or present with a total
parsing to a float value. -/
inductive PriceTotal where
  | missing
  | unparsable
  | parsed (v : PyFloat)
deriving DecidableEq

/-- One offer record of the payload's "data" list; `oid` is its identity. -/
structure Offer where
  oid : ℕ
  priceTotal : PriceTotal
deriving DecidableEq

/-- The min-key of one offer:
`float(x.get("price", {}).get("total", float("inf")))`; `none` models the
exception raised by `float()` on an unparsable total. -/
def offerKey : Offer → Option PyFloat
  | ⟨_, PriceTotal.missing⟩ => some PyFloat.inf
  | ⟨_, PriceTotal.unparsable⟩ => none
  | ⟨_, PriceTotal.parsed v⟩ => some v

/-- Python `min` with a key function: iterate, keeping the first item whose
key is strictly below every earlier key; an exception while computing a key
aborts the whole call (`none`). -/
def pyMinAux : Offer → PyFloat → List Offer → Option Offer
  | best, _, [] => some best
  | best, bkey, o :: rest =>
    match offerKey o with
    | none => none
    | some k => if pyLt k bkey then pyMinAux o k rest else pyMinAux best bkey rest

/-- Embedding of `find_cheapest_offer` (src/monitor_passagens.py, lines
336-348), restricted to its offer component.  `payload = none` models a
falsy payload, a payload without a "data" key, and a falsy `payload["data"]`
other than the empty list; the `dictionaries` second component of the result
carries no selection logic and is not represented.  Any exception inside
`min` is caught and yields `None`. -/
def find_cheapest_offer (payload : Option (List Offer)) : Option Offer :=
  match payload with
  | none => none
  | some [] => none
  | some (o :: rest) =>
    match offerKey o with
    | none => none
    | some k => pyMinAux o k rest

/-- Outcome of the `get_token` startup check: either the process terminates
through `sys.exit` or the function proceeds to the OAuth HTTP request (an
external effect). -/
inductive TokenOutcome where
  | fatalExit (code : ℕ)
  | requestToken
deriving DecidableEq

/-- Python truthiness of an optional env string: `None` and `""` are falsy. -/
def truthyEnv : Option String → Bool
  | none => false
  | some s => !s.isEmpty

/-- Embedding of the startup check of `get_token` (src/monitor_passagens.py,
lines 104-111): a missing or empty `CLIENT_ID` or `CLIENT_SECRET` logs an
error and calls `sys.exit(1)`; otherwise the function proceeds to request
the token over HTTP. -/
def get_token (CLIENT_ID CLIENT_SECRET : Option String) : TokenOutcome :=
  if !truthyEnv CLIENT_ID || !truthyEnv CLIENT_SECRET then TokenOutcome.fatalExit 1
  else TokenOutcome.requestToken

/-- The CSV header of data/history.csv (src/monitor_passagens.py, line 101). -/
def CSV_HEADERS : List String :=
  ["ts_utc", "origem", "destino", "departure_date", "price_total",
   "currency", "notified", "reason", "airline", "score"]

/-- One observation row as serialised by `csv.DictWriter` with fieldnames
`CSV_HEADERS`: the row's value for each header field, in header order. -/
def rowCells (row : String → String) : List String := CSV_HEADERS.map row

/-- Embedding of `append_history_row` (src/monitor_passagens.py, lines
240-249).  The history file is an optional list of CSV records (`none` when
the file does not exist).  The file is opened in append mode; the header
record is written only when the file did not exist, then the row record.
The `OSError` handler logs and leaves the file as it was; the embedding
models the successful write. -/
def append_history_row (hist : Option (List (List String))) (row : String → String) :
    Option (List (List String)) :=
  match hist with
  | none => some [CSV_HEADERS, rowCells row]
  | some recs => some (recs ++ [rowCells row])

/-- Embedding of `deal_score` (src/monitor_passagens.py, lines 203-212).
`price` and the baseline are finite floats; `stops` and `extra_minutes` are
ints, so the `int()` coercions in the source are the identity.  On floats
`not baseline_p25 or baseline_p25 <= 0` holds exactly when the baseline is
zero (falsy) or negative, i.e. `b ≤ 0`. -/
def deal_score (price : ℚ) (baseline_p25 : Option ℚ) (stops : ℤ) (extra_minutes : ℤ)
    (red_eye : Bool) (preferred : Bool) : ℤ :=
  match baseline_p25 with
  | none => 0
  | some b =>
    if b ≤ 0 then 0
    else
      let score : ℚ := qdiv (qmul 100 (qsub b price)) b
      let score : ℚ := qsub score (qmul 10 ((max 0 stops : ℤ) : ℚ))
      let score : ℚ := qsub score (qdiv (qmul (mkRat 1 2) ((max 0 extra_minutes : ℤ) : ℚ)) 60)
      let score : ℚ := if red_eye then qsub score 5 else score
      let score : ℚ := if preferred then qadd score 3 else score
      max 0 (min 100 (pyRound score))

/-! Helper lemmas relating the computable rational operations to the field
operations, and ordering facts about `pyLe` / `pyLt`. -/

/-- A rational equals its numerator divided by its denominator, in product
form; used to relate the computable operations to the field operations. -/
theorem num_eq_mul_den (a : ℚ) : (a.num : ℚ) = a * (a.den : ℚ) := by
  have ha : (a.den : ℚ) ≠ 0 := Nat.cast_ne_zero.mpr a.den_nz
  exact (div_eq_iff ha).mp (Rat.num_div_den a)

theorem qsub_eq_sub (a b : ℚ) : qsub a b = a - b := by
  have ha : (a.den : ℚ) ≠ 0 := Nat.cast_ne_zero.mpr a.den_nz
  have hb : (b.den : ℚ) ≠ 0 := Nat.cast_ne_zero.mpr b.den_nz
  rw [qsub, Rat.divInt_eq_div]
  push_cast
  rw [div_eq_iff (mul_ne_zero ha hb), num_eq_mul_den a, num_eq_mul_den b]
  ring

theorem qadd_eq_add (a b : ℚ) : qadd a b = a + b := by
  have ha : (a.den : ℚ) ≠ 0 := Nat.cast_ne_zero.mpr a.den_nz
  have hb : (b.den : ℚ) ≠ 0 := Nat.cast_ne_zero.mpr b.den_nz
  rw [qadd, Rat.divInt_eq_div]
  push_cast
  rw [div_eq_iff (mul_ne_zero ha hb), num_eq_mul_den a, num_eq_mul_den b]
  ring

theorem qmul_eq_mul (a b : ℚ) : qmul a b = a * b := by
  have ha : (a.den : ℚ) ≠ 0 := Nat.cast_ne_zero.mpr a.den_nz
  have hb : (b.den : ℚ) ≠ 0 := Nat.cast_ne_zero.mpr b.den_nz
  rw [qmul, Rat.divInt_eq_div]
  push_cast
  rw [div_eq_iff (mul_ne_zero ha hb), num_eq_mul_den a, num_eq_mul_den b]
  ring

theorem qdiv_eq_div (a b : ℚ) (hb : b ≠ 0) : qdiv a b = a / b := by
  have ha : (a.den : ℚ) ≠ 0 := Nat.cast_ne_zero.mpr a.den_nz
  have hbn : (b.num : ℚ) ≠ 0 := by
    exact_mod_cast Rat.num_ne_zero.mpr hb
  rw [qdiv, Rat.divInt_eq_div]
  push_cast
  rw [div_eq_div_iff (mul_ne_zero ha hbn) hb, num_eq_mul_den a, num_eq_mul_den b]
  ring

theorem pyLe_finite (a b : ℚ) :
    pyLe (PyFloat.finite a) (PyFloat.finite b) = decide (a ≤ b) := rfl

theorem pyLe_refl (a : PyFloat) (h : a ≠ PyFloat.nan) : pyLe a a = true := by
  cases a <;> simp_all [pyLe]

theorem pyLe_trans (a b c : PyFloat) (h1 : pyLe a b = true) (h2 : pyLe b c = true) :
    pyLe a c = true := by
  cases a <;> cases b <;> cases c <;> simp_all [pyLe] <;> linarith

theorem pyLt_imp_le (a b : PyFloat) (h : pyLt a b = true) : pyLe a b = true := by
  cases a <;> cases b <;> simp_all [pyLt, pyLe] <;> linarith

theorem pyLt_false_le (a b : PyFloat) (ha : a ≠ PyFloat.nan) (hb : b ≠ PyFloat.nan)
    (h : pyLt a b = false) : pyLe b a = true := by
  cases a <;> cases b <;> simp_all [pyLt, pyLe]

theorem offerKey_exists (o : Offer) (h : o.priceTotal ≠ PriceTotal.unparsable) :
    ∃ k, offerKey o = some k := by
  obtain ⟨i, pt⟩ := o
  cases pt with
  | missing => exact ⟨PyFloat.inf, rfl⟩
  | unparsable => simp at h
  | parsed v => exact ⟨v, rfl⟩

theorem offerKey_not_nan (o : Offer) (h : o.priceTotal ≠ PriceTotal.parsed PyFloat.nan)
    (k : PyFloat) (hk : offerKey o = some k) : k ≠ PyFloat.nan := by
  obtain ⟨i, pt⟩ := o
  cases pt with
  | missing =>
    simp [offerKey] at hk
    subst hk
    simp
  | unparsable => simp [offerKey] at hk
  | parsed v =>
    simp [offerKey] at hk
    subst hk
    intro hnan
    subst hnan
    simp at h

/-- Any unparsable total in the remaining items aborts the Python `min`. -/
theorem pyMinAux_abort (rest : List Offer) : ∀ (best : Offer) (bkey : PyFloat),
    (∃ o ∈ rest, o.priceTotal = PriceTotal.unparsable) →
    pyMinAux best bkey rest = none := by
  induction rest with
  | nil =>
    intro best bkey h
    simp at h
  | cons o rest ih =>
    intro best bkey h
    rcases h with ⟨w, hw, hwu⟩
    rcases List.mem_cons.mp hw with rfl | hwrest
    · have hkn : offerKey w = none := by
        obtain ⟨i, pt⟩ := w
        simp at hwu
        subst hwu
        rfl
      simp [pyMinAux, hkn]
    · cases hk : offerKey o with
      | none => simp [pyMinAux, hk]
      | some k =>
        simp only [pyMinAux, hk]
        split
        · exact ih o k ⟨w, hwrest, hwu⟩
        · exact ih best bkey ⟨w, hwrest, hwu⟩

/-- When every remaining item has a parsable (or defaulted) non-`nan` key,
the Python `min` returns an item whose key is at or below every key seen. -/
theorem pyMinAux_spec (rest : List Offer) : ∀ (best : Offer) (bkey : PyFloat),
    offerKey best = some bkey → bkey ≠ PyFloat.nan →
    (∀ o ∈ rest, o.priceTotal ≠ PriceTotal.unparsable) →
    (∀ o ∈ rest, o.priceTotal ≠ PriceTotal.parsed PyFloat.nan) →
    ∃ r rkey, pyMinAux best bkey rest = some r ∧ (r = best ∨ r ∈ rest) ∧
      offerKey r = some rkey ∧ pyLe rkey bkey = true ∧
      ∀ o ∈ rest, ∀ k, offerKey o = some k → pyLe rkey k = true := by
  induction rest with
  | nil =>
    intro best bkey hbk hnan _ _
    exact ⟨best, bkey, rfl, Or.inl rfl, hbk, pyLe_refl bkey hnan, by simp⟩
  | cons o rest ih =>
    intro best bkey hbk hnan hnu hnn
    obtain ⟨k, hk⟩ := offerKey_exists o (hnu o (List.mem_cons_self o rest))
    have hknan : k ≠ PyFloat.nan :=
      offerKey_not_nan o (hnn o (List.mem_cons_self o rest)) k hk
    have hnu2 : ∀ x ∈ rest, x.priceTotal ≠ PriceTotal.unparsable := fun x hx =>
      hnu x (List.mem_cons_of_mem o hx)
    have hnn2 : ∀ x ∈ rest, x.priceTotal ≠ PriceTotal.parsed PyFloat.nan := fun x hx =>
      hnn x (List.mem_cons_of_mem o hx)
    cases hlt : pyLt k bkey with
    | true =>
      obtain ⟨r, rkey, hrun, hrmem, hrkey, hrle, hrall⟩ := ih o k hk hknan hnu2 hnn2
      refine ⟨r, rkey, ?_, ?_, hrkey, ?_, ?_⟩
      · simp only [pyMinAux, hk, hlt, if_true]
        exact hrun
      · rcases hrmem with rfl | hr
        · exact Or.inr (List.mem_cons_self r rest)
        · exact Or.inr (List.mem_cons_of_mem o hr)
      · exact pyLe_trans rkey k bkey hrle (pyLt_imp_le k bkey hlt)
      · intro x hx kx hkx
        rcases List.mem_cons.mp hx with rfl | hxrest
        · rw [hkx] at hk
          injection hk with hk
          subst hk
          exact hrle
        · exact hrall x hxrest kx hkx
    | false =>
      obtain ⟨r, rkey, hrun, hrmem, hrkey, hrle, hrall⟩ := ih best bkey hbk hnan hnu2 hnn2
      refine ⟨r, rkey, ?_, ?_, hrkey, hrle, ?_⟩
      · simp only [pyMinAux, hk, hlt, if_false]
        exact hrun
      · rcases hrmem with rfl | hr
        · exact Or.inl rfl
        · exact Or.inr (List.mem_cons_of_mem o hr)
      · intro x hx kx hkx
        rcases List.mem_cons.mp hx with rfl | hxrest
        · rw [hkx] at hk
          injection hk with hk
          subst hk
          exact pyLe_trans rkey bkey kx hrle (pyLt_false_le kx bkey hknan hnan hlt)
        · exact hrall x hxrest kx hkx

/-! Claim theorems. -/

/-- Claim C1: for every current price at or below the cap `MAX_PRECO_PP`,
`deve_alertar` returns `True` with the reason citing the cap, for every
value of `melhor_anterior` (absent, zero, infinite, or any other float). -/
theorem deve_alertar_cap (MAX_PRECO_PP MIN_DISCOUNT_PCT : ℚ) (p : PyFloat)
    (melhor_anterior : Option PyFloat)
    (h : pyLe p (PyFloat.finite MAX_PRECO_PP) = true) :
    deve_alertar MAX_PRECO_PP MIN_DISCOUNT_PCT (PyVal.num p) melhor_anterior =
      (true, "≤ teto " ++ capStr MAX_PRECO_PP) := by
  simp [deve_alertar, pyFloatOf, h]

/-- Witness for claim C1 at the spec scenario: cap 1200, discount 0.25,
price 999.99, previous best 2000. -/
theorem deve_alertar_cap_witness :
    pyLe (PyFloat.finite (mkRat 99999 100)) (PyFloat.finite 1200) = true ∧
    deve_alertar 1200 (mkRat 1 4) (PyVal.num (PyFloat.finite (mkRat 99999 100)))
        (some (PyFloat.finite 2000)) = (true, "≤ teto " ++ capStr 1200) :=
  ⟨by decide,
   deve_alertar_cap 1200 (mkRat 1 4) (PyFloat.finite (mkRat 99999 100))
     (some (PyFloat.finite 2000)) (by decide)⟩

/-- Claim C2: above the cap, with a finite positive previous best, the alert
fires exactly when the relative drop `(melhor_anterior - preco_atual) /
melhor_anterior` reaches `MIN_DISCOUNT_PCT`, with the "queda" reason;
otherwise the no-qualifying-drop reason is returned. -/
theorem deve_alertar_queda (MAX_PRECO_PP MIN_DISCOUNT_PCT p m : ℚ)
    (hp : MAX_PRECO_PP < p) (hm : 0 < m) :
    (MIN_DISCOUNT_PCT ≤ (m - p) / m →
      deve_alertar MAX_PRECO_PP MIN_DISCOUNT_PCT (PyVal.num (PyFloat.finite p))
          (some (PyFloat.finite m)) =
        (true, "queda " ++ pctStr (PyFloat.finite ((m - p) / m)))) ∧
    ((m - p) / m < MIN_DISCOUNT_PCT →
      deve_alertar MAX_PRECO_PP MIN_DISCOUNT_PCT (PyVal.num (PyFloat.finite p))
          (some (PyFloat.finite m)) =
        (false, "sem queda significativa")) := by
  have hm0 : m ≠ 0 := ne_of_gt hm
  have hple : pyLe (PyFloat.finite p) (PyFloat.finite MAX_PRECO_PP) = false := by
    rw [pyLe_finite, decide_eq_false_iff_not]
    exact not_le.mpr hp
  have hd : pyDiv (pySub (PyFloat.finite m) (PyFloat.finite p)) (PyFloat.finite m)
      = PyFloat.finite ((m - p) / m) := by
    simp [pySub, pyDiv, hm0, qsub_eq_sub, qdiv_eq_div _ _ hm0]
  have key : deve_alertar MAX_PRECO_PP MIN_DISCOUNT_PCT (PyVal.num (PyFloat.finite p))
      (some (PyFloat.finite m)) =
      (if MIN_DISCOUNT_PCT ≤ (m - p) / m then
        ((true : Bool), "queda " ++ pctStr (PyFloat.finite ((m - p) / m)))
      else ((false : Bool), "sem queda significativa")) := by
    simp only [deve_alertar, pyFloatOf, hple, Bool.false_eq_true, if_false, hd,
      pyLe_finite, decide_eq_true_eq]
    rw [if_pos ⟨by simp, by simp [hm0]⟩]
  constructor
  · intro hge
    rw [key, if_pos hge]
  · intro hlt
    rw [key, if_neg (not_le.mpr hlt)]

/-- Witness for claim C2 at the spec scenario: cap 10, discount 0.20,
price 70, previous best 100 (a 30 percent drop). -/
theorem deve_alertar_queda_witness :
    (10 : ℚ) < 70 ∧ (0 : ℚ) < 100 ∧ mkRat 1 5 ≤ ((100 : ℚ) - 70) / 100 ∧
    deve_alertar 10 (mkRat 1 5) (PyVal.num (PyFloat.finite 70))
        (some (PyFloat.finite 100)) =
      (true, "queda " ++ pctStr (PyFloat.finite (((100 : ℚ) - 70) / 100))) :=
  ⟨by decide, by decide, by with_unfolding_all decide,
   (deve_alertar_queda 10 (mkRat 1 5) 70 100 (by decide) (by decide)).1
     (by with_unfolding_all decide)⟩

/-- Claim C3: above the cap, an absent, zero or infinite previous best skips
the discount rule (no division is attempted: the guard excludes the zero and
infinite divisors and `pyDiv` is never consulted) and the result is the
no-qualifying-drop outcome. -/
theorem deve_alertar_skip (MAX_PRECO_PP MIN_DISCOUNT_PCT : ℚ) (p : PyFloat)
    (hp : pyLe p (PyFloat.finite MAX_PRECO_PP) = false)
    (melhor_anterior : Option PyFloat)
    (hm : melhor_anterior = none ∨ melhor_anterior = some (PyFloat.finite 0) ∨
          melhor_anterior = some PyFloat.inf) :
    deve_alertar MAX_PRECO_PP MIN_DISCOUNT_PCT (PyVal.num p) melhor_anterior =
      (false, "sem queda significativa") := by
  rcases hm with h | h | h <;> subst h <;> simp [deve_alertar, pyFloatOf, hp]

/-- Witness for claim C3: price 2000 above cap 1200, previous best infinite. -/
theorem deve_alertar_skip_witness :
    pyLe (PyFloat.finite 2000) (PyFloat.finite 1200) = false ∧
    deve_alertar 1200 (mkRat 1 4) (PyVal.num (PyFloat.finite 2000)) (some PyFloat.inf) =
      (false, "sem queda significativa") :=
  ⟨by decide,
   deve_alertar_skip 1200 (mkRat 1 4) (PyFloat.finite 2000) (by decide)
     (some PyFloat.inf) (Or.inr (Or.inr rfl))⟩

/-- Counterexample to claim C4 as stated: at the negative price -5 (cap 1200,
discount 0.25, no previous best) `deve_alertar` does not fail with a
validation error; it returns the ordinary cap alert computed from the
negative value. -/
theorem deve_alertar_validation_counterexample :
    deve_alertar 1200 (mkRat 1 4) (PyVal.num (PyFloat.finite (-5))) none =
      (true, "≤ teto 1200") := by decide

/-- Claim C4 (amended): a non-numeric current price yields the no-alert
result with reason "valor inválido" (not a decision computed from the
value), but a negative numeric current price is not rejected: it is
processed by the ordinary rules and, the cap being non-negative, triggers
the cap alert. -/
theorem deve_alertar_validation (MAX_PRECO_PP MIN_DISCOUNT_PCT : ℚ)
    (melhor_anterior : Option PyFloat) :
    (deve_alertar MAX_PRECO_PP MIN_DISCOUNT_PCT PyVal.nonNumeric melhor_anterior =
      (false, "valor inválido")) ∧
    (∀ q : ℚ, q < 0 → 0 ≤ MAX_PRECO_PP →
      deve_alertar MAX_PRECO_PP MIN_DISCOUNT_PCT (PyVal.num (PyFloat.finite q))
          melhor_anterior = (true, "≤ teto " ++ capStr MAX_PRECO_PP)) := by
  constructor
  · simp [deve_alertar, pyFloatOf]
  · intro q hq hcap
    have hle : pyLe (PyFloat.finite q) (PyFloat.finite MAX_PRECO_PP) = true := by
      rw [pyLe_finite, decide_eq_true_eq]
      linarith
    simp [deve_alertar, pyFloatOf, hle]

/-- Witness for the amended claim C4: a non-numeric input and the negative
price -5 against cap 1200. -/
theorem deve_alertar_validation_witness :
    deve_alertar 1200 (mkRat 1 4) PyVal.nonNumeric none = (false, "valor inválido") ∧
    ((-5 : ℚ) < 0 ∧ (0 : ℚ) ≤ 1200 ∧
      deve_alertar 1200 (mkRat 1 4) (PyVal.num (PyFloat.finite (-5))) none =
        (true, "≤ teto " ++ capStr 1200)) :=
  ⟨(deve_alertar_validation 1200 (mkRat 1 4) none).1,
   by decide, by decide,
   (deve_alertar_validation 1200 (mkRat 1 4) none).2 (-5) (by decide) (by decide)⟩

/-- Counterexample to claim C5 as stated: an offer list with one entry whose
price is unparsable and one well-formed entry at 250.00.  The claim demands
the 250.00 entry (malformed entries skipped); the code aborts the whole
selection and returns none, although a well-formed entry is present. -/
theorem find_cheapest_offer_counterexample :
    find_cheapest_offer (some [⟨0, PriceTotal.unparsable⟩,
        ⟨1, PriceTotal.parsed (PyFloat.finite 250)⟩]) = none ∧
    (⟨1, PriceTotal.parsed (PyFloat.finite 250)⟩ : Offer).priceTotal ≠
      PriceTotal.unparsable := by decide

/-- Claim C5 (amended): `find_cheapest_offer` returns none on an absent
payload and on an empty offer list; an entry with an unparsable price
aborts the whole selection to none (well-formed entries are discarded with
it); when no entry is unparsable (entries with missing price fields count,
they carry the key infinity) and no parsed price is `nan`, it returns an
offer of the list whose key is at or below every entry's key. -/
theorem find_cheapest_offer_spec (payload : Option (List Offer)) :
    (payload = none → find_cheapest_offer payload = none) ∧
    (payload = some [] → find_cheapest_offer payload = none) ∧
    (∀ offers, payload = some offers →
      (∃ o ∈ offers, o.priceTotal = PriceTotal.unparsable) →
      find_cheapest_offer payload = none) ∧
    (∀ offers, payload = some offers → offers ≠ [] →
      (∀ o ∈ offers, o.priceTotal ≠ PriceTotal.unparsable) →
      (∀ o ∈ offers, o.priceTotal ≠ PriceTotal.parsed PyFloat.nan) →
      ∃ r rkey, find_cheapest_offer payload = some r ∧ r ∈ offers ∧
        offerKey r = some rkey ∧
        ∀ o ∈ offers, ∀ k, offerKey o = some k → pyLe rkey k = true) := by
  refine ⟨?_, ?_, ?_, ?_⟩
  · rintro rfl
    rfl
  · rintro rfl
    rfl
  · rintro offers rfl ⟨w, hw, hwu⟩
    cases offers with
    | nil => simp at hw
    | cons o rest =>
      rcases List.mem_cons.mp hw with rfl | hwrest
      · have hkn : offerKey w = none := by
          obtain ⟨i, pt⟩ := w
          simp at hwu
          subst hwu
          rfl
        simp [find_cheapest_offer, hkn]
      · cases hk : offerKey o with
        | none => simp [find_cheapest_offer, hk]
        | some k =>
          simp only [find_cheapest_offer, hk]
          exact pyMinAux_abort rest o k ⟨w, hwrest, hwu⟩
  · rintro offers rfl hne hnu hnn
    cases offers with
    | nil => exact absurd rfl hne
    | cons o rest =>
      obtain ⟨k, hk⟩ := offerKey_exists o (hnu o (List.mem_cons_self o rest))
      have hknan : k ≠ PyFloat.nan :=
        offerKey_not_nan o (hnn o (List.mem_cons_self o rest)) k hk
      obtain ⟨r, rkey, hrun, hrmem, hrkey, hrle, hrall⟩ :=
        pyMinAux_spec rest o k hk hknan
          (fun x hx => hnu x (List.mem_cons_of_mem o hx))
          (fun x hx => hnn x (List.mem_cons_of_mem o hx))
      refine ⟨r, rkey, ?_, ?_, hrkey, ?_⟩
      · simp only [find_cheapest_offer, hk]
        exact hrun
      · rcases hrmem with rfl | hr
        · exact List.mem_cons_self r rest
        · exact List.mem_cons_of_mem o hr
      · intro x hx kx hkx
        rcases List.mem_cons.mp hx with rfl | hxrest
        · rw [hkx] at hk
          injection hk with hk
          subst hk
          exact hrle
        · exact hrall x hxrest kx hkx

/-- Witness for the amended claim C5: a list with one missing-price entry
and one entry at 250.00 yields a minimal entry. -/
theorem find_cheapest_offer_spec_witness :
    ∃ r rkey,
      find_cheapest_offer (some [⟨0, PriceTotal.missing⟩,
          ⟨1, PriceTotal.parsed (PyFloat.finite 250)⟩]) = some r ∧
      r ∈ [(⟨0, PriceTotal.missing⟩ : Offer),
           ⟨1, PriceTotal.parsed (PyFloat.finite 250)⟩] ∧
      offerKey r = some rkey ∧
      ∀ o ∈ [(⟨0, PriceTotal.missing⟩ : Offer),
             ⟨1, PriceTotal.parsed (PyFloat.finite 250)⟩],
        ∀ k, offerKey o = some k → pyLe rkey k = true :=
  (find_cheapest_offer_spec
      (some [⟨0, PriceTotal.missing⟩, ⟨1, PriceTotal.parsed (PyFloat.finite 250)⟩])).2.2.2
    _ rfl (by decide) (by decide) (by decide)

/-- Claim C6: on the payload with one entry missing its price field and one
well-formed entry at 250.00, the selector returns the 250.00 entry. -/
theorem find_cheapest_offer_scenario :
    find_cheapest_offer (some [⟨0, PriceTotal.missing⟩,
        ⟨1, PriceTotal.parsed (PyFloat.finite 250)⟩]) =
      some ⟨1, PriceTotal.parsed (PyFloat.finite 250)⟩ := by decide

/-- Counterexample to claim C7 as stated: the day count 91 (e.g. departure
day 191 observed on day 100) is non-negative but lies in none of the listed
ranges 0-6, ..., 70-90, while the code still labels it "70-90". -/
theorem bucketing_counterexample :
    d_days 191 100 = 91 ∧ bucket_ddays 91 = "70-90" ∧
    ∀ r ∈ specBucketRanges, ¬(r.1 ≤ (91 : ℤ) ∧ (91 : ℤ) ≤ r.2.1) := by decide

/-- Claim C7 (amended): `days_to_departure = max(0, departure - collected)`
is non-negative; both bucketing functions agree; and with the final bucket
read as unbounded above (every count of at least 70 is labelled "70-90"),
every non-negative day count lies in exactly one bucket, whose label the
code returns. -/
theorem bucketing_partition (dep collected_utc dd : ℤ) (hdd : 0 ≤ dd) :
    0 ≤ d_days dep collected_utc ∧
    bucket dd = bucket_ddays dd ∧
    ∃ lo hi lbl, (lo, hi, lbl) ∈ codeBucketRanges ∧ inBucket lo hi dd = true ∧
      bucket_ddays dd = lbl ∧
      ∀ lo2 hi2 lbl2, (lo2, hi2, lbl2) ∈ codeBucketRanges →
        inBucket lo2 hi2 dd = true → lbl2 = lbl := by
  refine ⟨le_max_left 0 _, rfl, ?_⟩
  unfold bucket_ddays
  split_ifs with h1 h2 h3 h4 h5 h6 h7
  · refine ⟨0, some 6, "0-6", by decide, by simp [inBucket]; omega, rfl, ?_⟩
    intro lo2 hi2 lbl2 hmem hin
    fin_cases hmem <;> simp [inBucket] at hin <;> first | rfl | (exfalso; omega)
  · refine ⟨7, some 13, "7-13", by decide, by simp [inBucket]; omega, rfl, ?_⟩
    intro lo2 hi2 lbl2 hmem hin
    fin_cases hmem <;> simp [inBucket] at hin <;> first | rfl | (exfalso; omega)
  · refine ⟨14, some 20, "14-20", by decide, by simp [inBucket]; omega, rfl, ?_⟩
    intro lo2 hi2 lbl2 hmem hin
    fin_cases hmem <;> simp [inBucket] at hin <;> first | rfl | (exfalso; omega)
  · refine ⟨21, some 27, "21-27", by decide, by simp [inBucket]; omega, rfl, ?_⟩
    intro lo2 hi2 lbl2 hmem hin
    fin_cases hmem <;> simp [inBucket] at hin <;> first | rfl | (exfalso; omega)
  · refine ⟨28, some 34, "28-34", by decide, by simp [inBucket]; omega, rfl, ?_⟩
    intro lo2 hi2 lbl2 hmem hin
    fin_cases hmem <;> simp [inBucket] at hin <;> first | rfl | (exfalso; omega)
  · refine ⟨35, some 49, "35-49", by decide, by simp [inBucket]; omega, rfl, ?_⟩
    intro lo2 hi2 lbl2 hmem hin
    fin_cases hmem <;> simp [inBucket] at hin <;> first | rfl | (exfalso; omega)
  · refine ⟨50, some 69, "50-69", by decide, by simp [inBucket]; omega, rfl, ?_⟩
    intro lo2 hi2 lbl2 hmem hin
    fin_cases hmem <;> simp [inBucket] at hin <;> first | rfl | (exfalso; omega)
  · refine ⟨70, none, "70-90", by decide, by simp [inBucket]; omega, rfl, ?_⟩
    intro lo2 hi2 lbl2 hmem hin
    fin_cases hmem <;> simp [inBucket] at hin <;> first | rfl | (exfalso; omega)

/-- Witness for the amended claim C7: day count 40 (departure day 160
observed on day 120). -/
theorem bucketing_partition_witness :
    (0 : ℤ) ≤ 40 ∧
    (0 ≤ d_days 160 120 ∧
     bucket 40 = bucket_ddays 40 ∧
     ∃ lo hi lbl, (lo, hi, lbl) ∈ codeBucketRanges ∧ inBucket lo hi 40 = true ∧
       bucket_ddays 40 = lbl ∧
       ∀ lo2 hi2 lbl2, (lo2, hi2, lbl2) ∈ codeBucketRanges →
         inBucket lo2 hi2 40 = true → lbl2 = lbl) :=
  ⟨by decide, bucketing_partition 160 120 40 (by decide)⟩

/-- Claim C8: a missing client id or secret makes `get_token` terminate the
run with exit code 1; with both credentials present (non-empty) the
fatal-exit branch is not taken and the function proceeds to the token
request. -/
theorem get_token_credentials (cid cs : Option String) :
    ((cid = none ∨ cs = none) → get_token cid cs = TokenOutcome.fatalExit 1) ∧
    (∀ a b : String, cid = some a → cs = some b → a ≠ "" → b ≠ "" →
      get_token cid cs = TokenOutcome.requestToken) := by
  constructor
  · rintro (rfl | rfl)
    · rfl
    · simp [get_token, truthyEnv]
  · rintro a b rfl rfl ha hb
    have ha2 : a.isEmpty = false := by
      rw [Bool.eq_false_iff]
      simpa [String.isEmpty_iff] using ha
    have hb2 : b.isEmpty = false := by
      rw [Bool.eq_false_iff]
      simpa [String.isEmpty_iff] using hb
    simp [get_token, truthyEnv, ha2, hb2]

/-- Witness for claim C8: a missing id is fatal, two non-empty credentials
proceed to the request. -/
theorem get_token_credentials_witness :
    get_token none (some "secret") = TokenOutcome.fatalExit 1 ∧
    get_token (some "id") (some "secret") = TokenOutcome.requestToken :=
  ⟨(get_token_credentials none (some "secret")).1 (Or.inl rfl),
   (get_token_credentials (some "id") (some "secret")).2 "id" "secret" rfl rfl
     (by decide) (by decide)⟩

/-- Claim C9: the history log is append-only: when the file does not exist
the new content is the header followed by the new row, and when it exists
the prior records are kept unchanged and in order with the new row appended
at the end (and no second header). -/
theorem append_history_row_append_only (hist : Option (List (List String)))
    (row : String → String) :
    (hist = none →
      append_history_row hist row = some [CSV_HEADERS, rowCells row]) ∧
    (∀ recs, hist = some recs →
      append_history_row hist row = some (recs ++ [rowCells row])) := by
  constructor
  · rintro rfl
    rfl
  · rintro recs rfl
    rfl

/-- Witness for claim C9: appending to a two-record log keeps both records
in place and adds the new one at the end. -/
theorem append_history_row_witness :
    append_history_row (some [["r1"], ["r2"]]) (fun _ => "v") =
      some ([["r1"], ["r2"]] ++ [rowCells (fun _ => "v")]) :=
  (append_history_row_append_only (some [["r1"], ["r2"]]) (fun _ => "v")).2
    [["r1"], ["r2"]] rfl

/-- Claim C10: `deal_score` always returns an integer in [0, 100], and
returns exactly 0 when the baseline is absent or not positive. -/
theorem deal_score_props (price : ℚ) (baseline_p25 : Option ℚ)
    (stops extra_minutes : ℤ) (red_eye preferred : Bool) :
    (0 ≤ deal_score price baseline_p25 stops extra_minutes red_eye preferred ∧
      deal_score price baseline_p25 stops extra_minutes red_eye preferred ≤ 100) ∧
    (baseline_p25 = none →
      deal_score price baseline_p25 stops extra_minutes red_eye preferred = 0) ∧
    (∀ b, baseline_p25 = some b → b ≤ 0 →
      deal_score price baseline_p25 stops extra_minutes red_eye preferred = 0) := by
  refine ⟨?_, ?_, ?_⟩
  · cases baseline_p25 with
    | none => simp [deal_score]
    | some b =>
      by_cases hb : b ≤ 0
      · simp [deal_score, hb]
      · simp only [deal_score, hb, if_false]
        exact ⟨le_max_left 0 _, max_le (by norm_num) (min_le_left 100 _)⟩
  · rintro rfl
    rfl
  · rintro b rfl hb
    simp [deal_score, hb]

/-- Witness for claim C10: a positive baseline case inside the range, an
absent baseline and a negative baseline both scoring 0. -/
theorem deal_score_props_witness :
    (0 ≤ deal_score 100 (some 200) 1 30 true false ∧
      deal_score 100 (some 200) 1 30 true false ≤ 100) ∧
    deal_score 100 none 0 0 false false = 0 ∧
    ((-3 : ℚ) ≤ 0 ∧ deal_score 100 (some (-3)) 0 0 false false = 0) :=
  ⟨(deal_score_props 100 (some 200) 1 30 true false).1,
   (deal_score_props 100 none 0 0 false false).2.1 rfl,
   by decide,
   (deal_score_props 100 (some (-3)) 0 0 false false).2.2 (-3) rfl (by decide)⟩
